import Mathlib

/-!
Verification of the dynamic AI-model selection and cost-tracking subsystem
(`ModelSelectionService` and `CostTrackingService` of the backend).

Shallow embedding conventions:
* JavaScript numbers become `ℚ` (exact rational arithmetic); the one
  transcendental operation, `Math.log`, becomes `Real.log` and the
  cost-effectiveness score therefore lives in `ℝ`.
* The stable `Array.prototype.sort` by descending score followed by taking
  element 0 is modeled by `pickFirstMax`: the first element of the list
  attaining the maximal score (stable sorting keeps the original order of
  equal-score elements, so element 0 of the sorted array is exactly the
  first maximizer in catalog order).
* `Array.prototype.reduce` without an initial value throws on an empty
  array; it is modeled by `reduce1`, which returns `Except`.
* Firestore reads are modeled by an `Except Unit (List CostRecord)`
  argument (`.error` = the query threw) plus an explicit timestamp-window
  filter `windowRecords`; Firestore writes in `recordUsage` are modeled by
  a caller-supplied `write` function that may fail.
* The JavaScript truthiness test `record.actualCost || record.estimatedCost`
  becomes `orCost` (an `actualCost` of `0` or `undefined` falls through to
  `estimatedCost`).
-/

namespace Infra

/-! ### Generic list helpers -/

/-- First element attaining the maximal value of `f` over `x :: xs`.
This models a stable descending sort by `f` followed by taking element 0:
the source does `scoredCandidates.sort((a, b) => b.score - a.score)` (stable
in JavaScript engines) and then reads `scoredCandidates[0]`, which is the
first element of the original list whose `f`-value is maximal. -/
def pickFirstMax {α β : Type} [LinearOrder β] (f : α → β) (x : α) (xs : List α) : α :=
  xs.foldl (fun best c => if f best < f c then c else best) x

/-- `Array.prototype.reduce` without an initial value: throws a `TypeError`
on an empty array, otherwise folds from the first element. -/
def reduce1 {α : Type} (g : α → α → α) : List α → Except String α
  | [] => .error "Reduce of empty array with no initial value"
  | x :: xs => .ok (xs.foldl g x)

/-! ### Model selection: data model (`ModelSelectionService.ts`) -/

inductive Provider where
  | vertex
  | openai
deriving DecidableEq

inductive Complexity where
  | simple
  | moderate
  | complex
deriving DecidableEq

inductive Urgency where
  | low
  | normal
  | high
deriving DecidableEq

inductive Channel where
  | sms
  | voice
  | email
  | chat
deriving DecidableEq

inductive CustomerTier where
  | standard
  | premium
  | enterprise
deriving DecidableEq

structure ModelConfig where
  name : String
  provider : Provider
  modelId : String
  costPer1kTokens : ℚ
  contextWindow : ℕ
  strengths : List String
  maxTokens : Option ℕ
  temperature : Option ℚ
deriving DecidableEq

structure ModelSelectionCriteria where
  complexity : Complexity
  urgency : Urgency
  contextLength : ℕ
  requiresReasoning : Option Bool
  requiresCreativity : Option Bool
  customerTier : Option CustomerTier
  channel : Channel
deriving DecidableEq

structure SelectedModel where
  config : ModelConfig
  estimatedCost : ℚ
  reasoning : String
deriving DecidableEq

/-- The catalog entry for Gemini 1.5 Flash. The source repeats this exact
literal three times: as the first element of the catalog and as the
hardcoded fallback in the two empty-catalog branches of `findOptimalModel`. -/
def gemini15FlashConfig : ModelConfig :=
  { name := "Gemini 1.5 Flash"
    provider := .vertex
    modelId := "gemini-1.5-flash"
    costPer1kTokens := 0.075
    contextWindow := 1048576
    strengths := ["fast", "efficient", "good_for_simple"]
    maxTokens := some 8192
    temperature := some 0.7 }

/-- The static model catalog (`private models: ModelConfig[]`). -/
def models : List ModelConfig :=
  [ gemini15FlashConfig,
    { name := "Claude 3.5 Haiku"
      provider := .vertex
      modelId := "claude-3-5-haiku"
      costPer1kTokens := 0.25
      contextWindow := 200000
      strengths := ["fast", "efficient", "good_for_simple", "quick_responses"]
      maxTokens := some 8192
      temperature := some 0.7 },
    { name := "Gemini 2.5 Flash"
      provider := .vertex
      modelId := "gemini-2.5-flash"
      costPer1kTokens := 0.15
      contextWindow := 1048576
      strengths := ["balanced", "good_for_moderate", "multimodal"]
      maxTokens := some 8192
      temperature := some 0.7 },
    { name := "Claude 4.5 Sonnet"
      provider := .vertex
      modelId := "claude-4-5-sonnet"
      costPer1kTokens := 3.00
      contextWindow := 200000
      strengths := ["balanced", "good_for_moderate", "creative", "coding", "latest"]
      maxTokens := some 8192
      temperature := some 0.7 },
    { name := "Claude 3.5 Sonnet"
      provider := .vertex
      modelId := "claude-3-5-sonnet"
      costPer1kTokens := 3.00
      contextWindow := 200000
      strengths := ["balanced", "good_for_moderate", "creative", "coding"]
      maxTokens := some 8192
      temperature := some 0.7 },
    { name := "Claude 3 Haiku"
      provider := .vertex
      modelId := "claude-3-haiku"
      costPer1kTokens := 0.25
      contextWindow := 200000
      strengths := ["fast", "efficient", "good_for_simple"]
      maxTokens := some 4096
      temperature := some 0.7 },
    { name := "Claude 3 Sonnet"
      provider := .vertex
      modelId := "claude-3-sonnet"
      costPer1kTokens := 3.00
      contextWindow := 200000
      strengths := ["balanced", "good_for_moderate", "creative"]
      maxTokens := some 4096
      temperature := some 0.7 },
    { name := "Claude Instant 1.2"
      provider := .vertex
      modelId := "claude-instant-1.2"
      costPer1kTokens := 0.80
      contextWindow := 100000
      strengths := ["fast", "efficient", "legacy_support"]
      maxTokens := some 4096
      temperature := some 0.7 },
    { name := "Claude Opus 4.1"
      provider := .vertex
      modelId := "claude-opus-4.1"
      costPer1kTokens := 15.00
      contextWindow := 200000
      strengths := ["complex_reasoning", "creative", "nuanced_understanding", "multilingual", "latest_premium"]
      maxTokens := some 4096
      temperature := some 0.7 },
    { name := "Gemini 1.5 Pro"
      provider := .vertex
      modelId := "gemini-1.5-pro"
      costPer1kTokens := 1.25
      contextWindow := 2097152
      strengths := ["complex_reasoning", "large_context", "high_accuracy"]
      maxTokens := some 32768
      temperature := some 0.3 },
    { name := "Claude 3 Opus"
      provider := .vertex
      modelId := "claude-3-opus"
      costPer1kTokens := 15.00
      contextWindow := 200000
      strengths := ["complex_reasoning", "creative", "nuanced_understanding", "multilingual"]
      maxTokens := some 4096
      temperature := some 0.7 },
    { name := "GPT-4o"
      provider := .openai
      modelId := "gpt-4o"
      costPer1kTokens := 5.00
      contextWindow := 128000
      strengths := ["creative", "nuanced_understanding", "good_for_creative"]
      maxTokens := some 16384
      temperature := some 0.7 },
    { name := "GPT-4o-mini"
      provider := .openai
      modelId := "gpt-4o-mini"
      costPer1kTokens := 0.15
      contextWindow := 128000
      strengths := ["fast", "efficient", "good_for_simple"]
      maxTokens := some 16384
      temperature := some 0.7 },
    { name := "Grok-2"
      provider := .vertex
      modelId := "grok-2"
      costPer1kTokens := 2.00
      contextWindow := 128000
      strengths := ["creative", "helpful", "maximal_truth", "real_time"]
      maxTokens := some 4096
      temperature := some 0.7 },
    { name := "Grok-1.5"
      provider := .vertex
      modelId := "grok-1.5"
      costPer1kTokens := 1.00
      contextWindow := 128000
      strengths := ["balanced", "helpful", "real_time"]
      maxTokens := some 4096
      temperature := some 0.7 },
    { name := "Grok-1"
      provider := .vertex
      modelId := "grok-1"
      costPer1kTokens := 0.50
      contextWindow := 8192
      strengths := ["fast", "efficient", "helpful"]
      maxTokens := some 2048
      temperature := some 0.7 } ]

/-! ### Model selection: operations -/

/-- First filter of `filterModelsByCriteria`: complexity requirements.
The source `switch` has a `default: return true` arm, unreachable because
`complexity` is a closed three-value union. -/
def complexityFilter (criteria : ModelSelectionCriteria) (model : ModelConfig) : Bool :=
  match criteria.complexity with
  | .simple => model.strengths.contains "good_for_simple" || model.strengths.contains "fast"
  | .moderate => model.strengths.contains "good_for_moderate" || model.strengths.contains "balanced"
  | .complex => model.strengths.contains "complex_reasoning" || model.strengths.contains "large_context"

/-- Second filter: context length requirements. -/
def contextFilter (criteria : ModelSelectionCriteria) (model : ModelConfig) : Bool :=
  decide (criteria.contextLength ≤ model.contextWindow)

/-- Third filter: customer tier cost floors (enterprise 0.5, premium 0.1). -/
def tierFilter (criteria : ModelSelectionCriteria) (model : ModelConfig) : Bool :=
  if criteria.customerTier = some .enterprise then
    decide ((0.5 : ℚ) ≤ model.costPer1kTokens)
  else if criteria.customerTier = some .premium then
    decide ((0.1 : ℚ) ≤ model.costPer1kTokens)
  else
    true

/-- Fourth filter: urgent voice requests keep only models tagged fast. -/
def channelFilter (criteria : ModelSelectionCriteria) (model : ModelConfig) : Bool :=
  if criteria.channel = .voice ∧ criteria.urgency = .high then
    model.strengths.contains "fast"
  else
    true

/-- `filterModelsByCriteria`: the four chained `.filter` calls of the source. -/
def filterModelsByCriteria (catalog : List ModelConfig) (criteria : ModelSelectionCriteria) :
    List ModelConfig :=
  (((catalog.filter (complexityFilter criteria)).filter (contextFilter criteria)).filter
      (tierFilter criteria)).filter (channelFilter criteria)

/-- The conjunction of the four filters as a single predicate. -/
def candidatePred (criteria : ModelSelectionCriteria) (model : ModelConfig) : Bool :=
  complexityFilter criteria model && contextFilter criteria model &&
    tierFilter criteria model && channelFilter criteria model

/-- Applying a list of filters in sequence (used to state order independence). -/
def applyFilters (ps : List (ModelConfig → Bool)) (l : List ModelConfig) : List ModelConfig :=
  ps.foldl (fun acc p => acc.filter p) l

/-- The four filters of `filterModelsByCriteria` in source order. -/
def criteriaFilters (criteria : ModelSelectionCriteria) : List (ModelConfig → Bool) :=
  [complexityFilter criteria, contextFilter criteria, tierFilter criteria, channelFilter criteria]

/-- `calculateCost`: `(model.costPer1kTokens * tokens) / 1000`. -/
def calculateCost (model : ModelConfig) (tokens : ℚ) : ℚ :=
  model.costPer1kTokens * tokens / 1000

/-- `calculateEffectivenessScore`: base 0.5 plus the fixed bonuses, capped at 1. -/
def calculateEffectivenessScore (model : ModelConfig) (criteria : ModelSelectionCriteria) : ℚ :=
  let s0 : ℚ := 0.5
  let s1 := if criteria.complexity = .simple ∧ model.strengths.contains "good_for_simple" then s0 + 0.3 else s0
  let s2 := if criteria.complexity = .moderate ∧ model.strengths.contains "good_for_moderate" then s1 + 0.3 else s1
  let s3 := if criteria.complexity = .complex ∧ model.strengths.contains "complex_reasoning" then s2 + 0.4 else s2
  let s4 := if criteria.urgency = .high ∧ model.strengths.contains "fast" then s3 + 0.2 else s3
  let s5 := if criteria.urgency = .low ∧ model.costPer1kTokens < 0.5 then s4 + 0.1 else s4
  let s6 := if criteria.contextLength * 2 < model.contextWindow then s5 + 0.1 else s5
  let s7 := if criteria.customerTier = some .enterprise ∧ (1.0 : ℚ) < model.costPer1kTokens then s6 + 0.2 else s6
  let s8 := if criteria.customerTier = some .standard ∧ model.costPer1kTokens < 0.2 then s7 + 0.1 else s7
  min s8 1.0

/-- The cost-effectiveness score `effectiveness / Math.log(cost + 1)`. -/
noncomputable def modelScore (criteria : ModelSelectionCriteria) (estimatedTokens : ℚ)
    (model : ModelConfig) : ℝ :=
  (calculateEffectivenessScore model criteria : ℝ) /
    Real.log ((calculateCost model estimatedTokens : ℝ) + 1)

/-- Reasoning text of the scored branch. The source interpolates the score,
cost and effectiveness numbers via float `toFixed` formatting, which is
display-only; the numeric suffix is not modeled. No claim depends on this
text. -/
def scoredReasoning : String :=
  "Selected based on cost-effectiveness score"

/-- Element 0 of the candidates array after the stable descending sort by
score (`scoredCandidates[0]` as an `Option`, `none` iff the array is empty). -/
noncomputable def sortedFirst (criteria : ModelSelectionCriteria) (estimatedTokens : ℚ) :
    List ModelConfig → Option ModelConfig
  | [] => none
  | c :: cs => some (pickFirstMax (modelScore criteria estimatedTokens) c cs)

/-- `findOptimalModel`. The `[]` branch is the cheapest-model fallback
(`reduce` without initial value, guarded by a catalog length check); the
`none` branch of the scored arm is the `if (!selected)` ultimate fallback. -/
noncomputable def findOptimalModel (catalog : List ModelConfig)
    (criteria : ModelSelectionCriteria) (estimatedTokens : ℚ)
    (candidates : List ModelConfig) : Except String (ModelConfig × String) :=
  match candidates with
  | [] =>
    if 0 < catalog.length then
      (reduce1 (fun cheapest current =>
          if current.costPer1kTokens < cheapest.costPer1kTokens then current else cheapest)
        catalog).map
        (fun fallback => (fallback, "No models matched criteria, using cheapest fallback"))
    else
      .ok (gemini15FlashConfig, "No models matched criteria, using cheapest fallback")
  | c :: cs =>
    match sortedFirst criteria estimatedTokens (c :: cs) with
    | some selected => .ok (selected, scoredReasoning)
    | none =>
      match catalog.head? with
      | some m => .ok (m, "Selection failed, using first available model")
      | none => .ok (gemini15FlashConfig, "Selection failed, using first available model")

/-- `selectModel`: filter, pick the optimal model, attach the estimated cost. -/
noncomputable def selectModel (catalog : List ModelConfig)
    (criteria : ModelSelectionCriteria) (estimatedTokens : ℚ) :
    Except String SelectedModel :=
  (findOptimalModel catalog criteria estimatedTokens
      (filterModelsByCriteria catalog criteria)).map
    (fun sel =>
      { config := sel.1
        estimatedCost := calculateCost sel.1 estimatedTokens
        reasoning := sel.2 })

/-! ### Cost tracking: data model (`CostTrackingService` in `AIAgentService.ts`) -/

structure CostRecord where
  id : String
  timestamp : ℤ
  sessionId : String
  modelName : String
  modelProvider : String
  inputTokens : ℚ
  outputTokens : ℚ
  totalTokens : ℚ
  estimatedCost : ℚ
  actualCost : Option ℚ
  channel : String
  complexity : String
  urgency : String
  customerTier : Option String
  responseTime : ℚ
  success : Bool
  errorMessage : Option String
deriving DecidableEq

structure CostSummary where
  totalCost : ℚ
  totalRequests : ℕ
  averageCostPerRequest : ℚ
  costByModel : List (String × ℚ)
  costByChannel : List (String × ℚ)
  costByComplexity : List (String × ℚ)
  costSavings : ℚ
  costSavingsPercentage : ℚ
  periodStart : ℤ
  periodEnd : ℤ
deriving DecidableEq

/-- The usage event as supplied by the caller of `recordUsage`
(`Omit<CostRecord, 'id' | 'timestamp'>`). -/
structure UsageEventInput where
  sessionId : String
  modelName : String
  modelProvider : String
  inputTokens : ℚ
  outputTokens : ℚ
  totalTokens : ℚ
  estimatedCost : ℚ
  actualCost : Option ℚ
  channel : String
  complexity : String
  urgency : String
  customerTier : Option String
  responseTime : ℚ
  success : Bool
  errorMessage : Option String
deriving DecidableEq

/-! ### Cost tracking: operations -/

/-- JavaScript `record.actualCost || record.estimatedCost`: an `actualCost`
of `0` (falsy) or `undefined` falls through to `estimatedCost`. -/
def orCost (r : CostRecord) : ℚ :=
  match r.actualCost with
  | some a => if a = 0 then r.estimatedCost else a
  | none => r.estimatedCost

/-- `records.reduce((sum, record) => sum + (record.actualCost || record.estimatedCost), 0)`. -/
def sumCost (records : List CostRecord) : ℚ :=
  records.foldl (fun s r => s + orCost r) 0

/-- `records.reduce((sum, r) => sum + r.totalTokens, 0)`. -/
def sumTokens (records : List CostRecord) : ℚ :=
  records.foldl (fun s r => s + r.totalTokens) 0

/-- Aggregate actual-or-estimated cost of one model's events
(the inner `filter`/`reduce` of `calculateCostSavings`). -/
def aggCost (records : List CostRecord) (name : String) : ℚ :=
  (records.filter (fun r => r.modelName == name)).foldl (fun s r => s + orCost r) 0

/-- The `records.reduce(..., { model: '', cost: 0 })` of `calculateCostSavings`:
the model name (with its aggregate cost) of the first record whose model
attains the strictly largest aggregate cost, starting from `("", 0)`. -/
def maxAggModel (f : CostRecord → ℚ) (records : List CostRecord) (init : String × ℚ) :
    String × ℚ :=
  records.foldl (fun acc r => if acc.2 < f r then (r.modelName, f r) else acc) init

/-- `Math.max(...records.filter(model match).map(r => r.estimatedCost / r.totalTokens))`.
The `[]` arm is unreachable in the source (`Math.max()` of an empty spread
would be `-Infinity`, but the call is guarded by a record of that model
existing). -/
def maxObservedRate (records : List CostRecord) (name : String) : ℚ :=
  match (records.filter (fun r => r.modelName == name)).map
      (fun r => r.estimatedCost / r.totalTokens) with
  | [] => 0
  | x :: xs => xs.foldl max x

/-- `calculateCostSavings`: hypothetical always-most-expensive cost minus
actual cost; `0` when no model was picked (empty model name is falsy). -/
def calculateCostSavings (records : List CostRecord) : ℚ :=
  let mostExpensiveModel :=
    maxAggModel (fun r => aggCost records r.modelName) records ("", 0)
  if mostExpensiveModel.1 ≠ "" then
    maxObservedRate records mostExpensiveModel.1 * sumTokens records - sumCost records
  else
    0

/-- `acc[key] = (acc[key] || 0) + cost` over a string-keyed object, modeled
as an insertion-ordered association list. -/
def addCost (acc : List (String × ℚ)) (key : String) (cost : ℚ) : List (String × ℚ) :=
  if acc.any (fun kv => kv.1 == key) then
    acc.map (fun kv => if kv.1 == key then (kv.1, kv.2 + cost) else kv)
  else
    acc ++ [(key, cost)]

/-- `groupCostsBy`. -/
def groupCostsBy (records : List CostRecord) (field : CostRecord → String) :
    List (String × ℚ) :=
  records.foldl (fun acc r => addCost acc (field r) (orCost r)) []

/-- `getEmptySummary`. -/
def getEmptySummary (startDate endDate : ℤ) : CostSummary :=
  { totalCost := 0
    totalRequests := 0
    averageCostPerRequest := 0
    costByModel := []
    costByChannel := []
    costByComplexity := []
    costSavings := 0
    costSavingsPercentage := 0
    periodStart := startDate
    periodEnd := endDate }

/-- The Firestore query `where('timestamp', '>=', startDate).where('timestamp', '<=', endDate)`. -/
def windowRecords (docs : List CostRecord) (startDate endDate : ℤ) : List CostRecord :=
  docs.filter (fun r => decide (startDate ≤ r.timestamp) && decide (r.timestamp ≤ endDate))

/-- `getCostSummary`. The `fetched` argument models the outcome of the
Firestore read: `.error` makes the surrounding `try`/`catch` return the
empty summary. -/
def getCostSummary (fetched : Except Unit (List CostRecord)) (startDate endDate : ℤ) :
    CostSummary :=
  match fetched with
  | .error _ => getEmptySummary startDate endDate
  | .ok docs =>
    let records := windowRecords docs startDate endDate
    if records.length = 0 then getEmptySummary startDate endDate
    else
      { totalCost := sumCost records
        totalRequests := records.length
        averageCostPerRequest := sumCost records / (records.length : ℚ)
        costByModel := groupCostsBy records (fun r => r.modelName)
        costByChannel := groupCostsBy records (fun r => r.channel)
        costByComplexity := groupCostsBy records (fun r => r.complexity)
        costSavings := calculateCostSavings records
        costSavingsPercentage :=
          calculateCostSavings records / (sumCost records + calculateCostSavings records) * 100
        periodStart := startDate
        periodEnd := endDate }

structure BudgetAlertStatus where
  withinBudget : Bool
  currentSpending : ℚ
  budgetRemaining : ℚ
  alertTriggered : Bool
deriving DecidableEq

/-- `checkBudgetAlert`, with `getCurrentDayMetrics` inlined: today's total
cost is the `totalCost` of the summary over the `[startOfDay, endOfDay]`
window. -/
def checkBudgetAlert (fetched : Except Unit (List CostRecord)) (startOfDay endOfDay : ℤ)
    (dailyBudget : ℚ) : BudgetAlertStatus :=
  let totalCost := (getCostSummary fetched startOfDay endOfDay).totalCost
  { withinBudget := decide (totalCost ≤ dailyBudget)
    currentSpending := totalCost
    budgetRemaining := dailyBudget - totalCost
    alertTriggered := decide (dailyBudget * 0.8 < totalCost) }

/-- The record built by `recordUsage`: the input plus the assigned id and
timestamp. -/
def mkCostRecord (input : UsageEventInput) (newId : String) (now : ℤ) : CostRecord :=
  { id := newId
    timestamp := now
    sessionId := input.sessionId
    modelName := input.modelName
    modelProvider := input.modelProvider
    inputTokens := input.inputTokens
    outputTokens := input.outputTokens
    totalTokens := input.totalTokens
    estimatedCost := input.estimatedCost
    actualCost := input.actualCost
    channel := input.channel
    complexity := input.complexity
    urgency := input.urgency
    customerTier := input.customerTier
    responseTime := input.responseTime
    success := input.success
    errorMessage := input.errorMessage }

/-- `recordUsage`: builds the record, attempts the store write, and catches
any write failure (the `catch` logs and returns normally, leaving the store
as it was). The return type is the resulting store, not an `Except`: no
error ever propagates to the caller. -/
def recordUsage (write : CostRecord → Except String (List CostRecord))
    (store : List CostRecord) (input : UsageEventInput) (newId : String) (now : ℤ) :
    List CostRecord :=
  match write (mkCostRecord input newId now) with
  | .ok updated => updated
  | .error _ => store

/-! ### Concrete sample inputs used by witnesses and counterexamples -/

/-- A usage event with the given model name, estimated cost, optional actual
cost, token count and timestamp (remaining fields fixed). -/
def sampleRecord (name : String) (est : ℚ) (actual : Option ℚ) (tokens : ℚ) (ts : ℤ) :
    CostRecord :=
  { id := "evt"
    timestamp := ts
    sessionId := "session-1"
    modelName := name
    modelProvider := "vertex"
    inputTokens := tokens
    outputTokens := 0
    totalTokens := tokens
    estimatedCost := est
    actualCost := actual
    channel := "sms"
    complexity := "simple"
    urgency := "low"
    customerTier := none
    responseTime := 100
    success := true
    errorMessage := none }

/-- Criteria of a simple low-urgency SMS request. -/
def simpleCriteria : ModelSelectionCriteria :=
  { complexity := .simple
    urgency := .low
    contextLength := 1
    requiresReasoning := none
    requiresCreativity := none
    customerTier := none
    channel := .sms }

/-- Criteria whose context length exceeds every catalog context window
(largest is 2097152), so the candidate set is empty. -/
def hugeContextCriteria : ModelSelectionCriteria :=
  { complexity := .simple
    urgency := .low
    contextLength := 3000000
    requiresReasoning := none
    requiresCreativity := none
    customerTier := none
    channel := .sms }

/-- A sample `recordUsage` input. -/
def sampleInput : UsageEventInput :=
  { sessionId := "session-1"
    modelName := "Gemini 1.5 Flash"
    modelProvider := "vertex"
    inputTokens := 60
    outputTokens := 40
    totalTokens := 100
    estimatedCost := 0.0075
    actualCost := none
    channel := "sms"
    complexity := "simple"
    urgency := "low"
    customerTier := none
    responseTime := 120
    success := true
    errorMessage := none }

/-- One event whose actual cost is positive but whose estimated cost is 0. -/
def zeroEstimateDocs : List CostRecord :=
  [sampleRecord "model-a" 0 (some 5) 10 0]

/-- One event with positive estimated cost. -/
def positiveEstimateDocs : List CostRecord :=
  [sampleRecord "model-a" 2 none 10 0]

/-- Two events across two models, both with positive estimated cost. -/
def savingsWitnessDocs : List CostRecord :=
  [sampleRecord "model-a" 1 none 10 0, sampleRecord "model-b" 3 (some 4) 10 1]

/-- One event with timestamp 50, outside the window `[0, 10]`. -/
def outsideWindowDocs : List CostRecord :=
  [sampleRecord "model-a" 1 none 10 50]

/-- One event costing 81, inside the day window `[0, 10]`. -/
def budget81Docs : List CostRecord :=
  [sampleRecord "model-a" 81 none 100 5]

/-- One event costing 79, inside the day window `[0, 10]`. -/
def budget79Docs : List CostRecord :=
  [sampleRecord "model-a" 79 none 100 5]

/-! ### Helper lemmas -/

theorem pickFirstMax_spec {α β : Type} [LinearOrder β] (f : α → β) :
    ∀ (xs : List α) (x : α),
      ∃ l1 l2,
        x :: xs = l1 ++ pickFirstMax f x xs :: l2 ∧
        (∀ a ∈ l1, f a < f (pickFirstMax f x xs)) ∧
        (∀ a ∈ x :: xs, f a ≤ f (pickFirstMax f x xs)) := by
  intro xs
  induction xs with
  | nil =>
    intro x
    refine ⟨[], [], by simp [pickFirstMax], by simp, ?_⟩
    intro a ha
    rcases List.mem_singleton.mp ha with rfl
    simp [pickFirstMax]
  | cons y ys ih =>
    intro x
    by_cases h : f x < f y
    · have hstep : pickFirstMax f x (y :: ys) = pickFirstMax f y ys := by
        simp [pickFirstMax, h]
      obtain ⟨l1, l2, hdec, hlt, hle⟩ := ih y
      have hxy : f x < f (pickFirstMax f y ys) :=
        lt_of_lt_of_le h (hle y (List.mem_cons_self y ys))
      refine ⟨x :: l1, l2, ?_, ?_, ?_⟩
      · rw [hstep, List.cons_append]
        exact congrArg (List.cons x) hdec
      · intro a ha
        rw [hstep]
        rcases List.mem_cons.mp ha with rfl | ha
        · exact hxy
        · exact hlt a ha
      · intro a ha
        rw [hstep]
        rcases List.mem_cons.mp ha with rfl | ha
        · exact le_of_lt hxy
        · exact hle a ha
    · have hstep : pickFirstMax f x (y :: ys) = pickFirstMax f x ys := by
        simp [pickFirstMax, h]
      have hyx : f y ≤ f x := le_of_not_lt h
      obtain ⟨l1, l2, hdec, hlt, hle⟩ := ih x
      cases l1 with
      | nil =>
        simp only [List.nil_append] at hdec
        injection hdec with hx hl2
        refine ⟨[], y :: ys, ?_, by simp, ?_⟩
        · rw [hstep, ← hx]
          rfl
        · intro a ha
          rw [hstep]
          rcases List.mem_cons.mp ha with rfl | ha
          · exact hle a (List.mem_cons_self a ys)
          · rcases List.mem_cons.mp ha with rfl | ha
            · exact le_trans hyx (hle x (List.mem_cons_self x ys))
            · exact hle a (List.mem_cons_of_mem x ha)
      | cons z l1' =>
        rw [List.cons_append] at hdec
        injection hdec with hz hys
        have hxr : f x < f (pickFirstMax f x ys) := by
          have hzr := hlt z (List.mem_cons_self z l1')
          rw [← hz] at hzr
          exact hzr
        refine ⟨x :: y :: l1', l2, ?_, ?_, ?_⟩
        · rw [hstep, List.cons_append, List.cons_append]
          exact congrArg (List.cons x) (congrArg (List.cons y) hys)
        · intro a ha
          rw [hstep]
          rcases List.mem_cons.mp ha with rfl | ha
          · exact hxr
          · rcases List.mem_cons.mp ha with rfl | ha
            · exact lt_of_le_of_lt hyx hxr
            · exact hlt a (List.mem_cons_of_mem z ha)
        · intro a ha
          rw [hstep]
          rcases List.mem_cons.mp ha with rfl | ha
          · exact hle a (List.mem_cons_self a ys)
          · rcases List.mem_cons.mp ha with rfl | ha
            · exact le_of_lt (lt_of_le_of_lt hyx hxr)
            · exact hle a (List.mem_cons_of_mem x ha)

theorem pickFirstMax_mem {α β : Type} [LinearOrder β] (f : α → β) (x : α) (xs : List α) :
    pickFirstMax f x xs ∈ x :: xs := by
  obtain ⟨l1, l2, hdec, -, -⟩ := pickFirstMax_spec f xs x
  rw [hdec]
  exact List.mem_append_right _ (List.mem_cons_self _ _)

theorem filterModels_eq_filter (catalog : List ModelConfig) (criteria : ModelSelectionCriteria) :
    filterModelsByCriteria catalog criteria = catalog.filter (candidatePred criteria) := by
  unfold filterModelsByCriteria
  rw [List.filter_filter, List.filter_filter, List.filter_filter]
  refine List.filter_congr ?_
  intro m _
  unfold candidatePred
  cases complexityFilter criteria m <;> cases contextFilter criteria m <;>
    cases tierFilter criteria m <;> cases channelFilter criteria m <;> rfl

theorem applyFilters_eq_filter_all (ps : List (ModelConfig → Bool)) :
    ∀ l : List ModelConfig, applyFilters ps l = l.filter (fun m => ps.all (fun p => p m)) := by
  induction ps with
  | nil =>
    intro l
    simp [applyFilters]
  | cons p ps ih =>
    intro l
    have hstep : applyFilters (p :: ps) l = applyFilters ps (l.filter p) := rfl
    rw [hstep, ih, List.filter_filter]
    refine List.filter_congr ?_
    intro m _
    cases hp : p m <;> simp [hp]

theorem all_eq_of_perm {ps qs : List (ModelConfig → Bool)} (h : ps.Perm qs) (m : ModelConfig) :
    ps.all (fun p => p m) = qs.all (fun p => p m) := by
  cases hps : ps.all (fun p => p m) with
  | true =>
    have hall := List.all_eq_true.mp hps
    exact (List.all_eq_true.mpr (fun p hp => hall p (h.mem_iff.mpr hp))).symm
  | false =>
    cases hqs : qs.all (fun p => p m) with
    | false => rfl
    | true =>
      have hall := List.all_eq_true.mp hqs
      have hps' : ps.all (fun p => p m) = true :=
        List.all_eq_true.mpr (fun p hp => hall p (h.mem_iff.mp hp))
      rw [hps] at hps'
      cases hps'

theorem applyFilters_perm {ps qs : List (ModelConfig → Bool)} (h : ps.Perm qs)
    (l : List ModelConfig) : applyFilters ps l = applyFilters qs l := by
  rw [applyFilters_eq_filter_all, applyFilters_eq_filter_all]
  exact List.filter_congr (fun m _ => all_eq_of_perm h m)

theorem foldl_add_eq (g : CostRecord → ℚ) :
    ∀ (l : List CostRecord) (init : ℚ),
      l.foldl (fun s r => s + g r) init = init + (l.map g).sum := by
  intro l
  induction l with
  | nil =>
    intro init
    simp
  | cons r rs ih =>
    intro init
    simp only [List.foldl_cons, List.map_cons, List.sum_cons]
    rw [ih, add_assoc]

theorem le_foldl_max : ∀ (xs : List ℚ) (x : ℚ),
    x ≤ xs.foldl max x ∧ ∀ a ∈ xs, a ≤ xs.foldl max x := by
  intro xs
  induction xs with
  | nil =>
    intro x
    exact ⟨le_refl x, by simp⟩
  | cons y ys ih =>
    intro x
    obtain ⟨h1, h2⟩ := ih (max x y)
    refine ⟨le_trans (le_max_left x y) h1, ?_⟩
    intro a ha
    rcases List.mem_cons.mp ha with rfl | ha
    · exact le_trans (le_max_right x a) h1
    · exact h2 a ha

theorem foldl_max_le (b : ℚ) : ∀ (xs : List ℚ) (x : ℚ),
    x ≤ b → (∀ a ∈ xs, a ≤ b) → xs.foldl max x ≤ b := by
  intro xs
  induction xs with
  | nil =>
    intro x hx _
    simpa using hx
  | cons y ys ih =>
    intro x hx h
    have hy : y ≤ b := h y (List.mem_cons_self y ys)
    exact ih (max x y) (max_le hx hy) (fun a ha => h a (List.mem_cons_of_mem y ha))

theorem maxAggModel_le (f : CostRecord → ℚ) :
    ∀ (l : List CostRecord) (init : String × ℚ),
      init.2 ≤ (maxAggModel f l init).2 ∧ ∀ r ∈ l, f r ≤ (maxAggModel f l init).2 := by
  intro l
  induction l with
  | nil =>
    intro init
    exact ⟨le_refl _, by simp⟩
  | cons r rs ih =>
    intro init
    by_cases h : init.2 < f r
    · have hstep : maxAggModel f (r :: rs) init = maxAggModel f rs (r.modelName, f r) := by
        simp [maxAggModel, h]
      obtain ⟨h1, h2⟩ := ih (r.modelName, f r)
      rw [hstep]
      refine ⟨le_trans (le_of_lt h) h1, ?_⟩
      intro a ha
      rcases List.mem_cons.mp ha with rfl | ha
      · exact h1
      · exact h2 a ha
    · have hstep : maxAggModel f (r :: rs) init = maxAggModel f rs init := by
        simp [maxAggModel, h]
      obtain ⟨h1, h2⟩ := ih init
      rw [hstep]
      refine ⟨h1, ?_⟩
      intro a ha
      rcases List.mem_cons.mp ha with rfl | ha
      · exact le_trans (le_of_not_lt h) h1
      · exact h2 a ha

theorem maxAggModel_cases (f : CostRecord → ℚ) :
    ∀ (l : List CostRecord) (init : String × ℚ),
      maxAggModel f l init = init ∨ ∃ r ∈ l, maxAggModel f l init = (r.modelName, f r) := by
  intro l
  induction l with
  | nil =>
    intro init
    exact Or.inl rfl
  | cons r rs ih =>
    intro init
    by_cases h : init.2 < f r
    · have hstep : maxAggModel f (r :: rs) init = maxAggModel f rs (r.modelName, f r) := by
        simp [maxAggModel, h]
      rw [hstep]
      rcases ih (r.modelName, f r) with heq | ⟨a, ha, heq⟩
      · exact Or.inr ⟨r, List.mem_cons_self r rs, heq⟩
      · exact Or.inr ⟨a, List.mem_cons_of_mem r ha, heq⟩
    · have hstep : maxAggModel f (r :: rs) init = maxAggModel f rs init := by
        simp [maxAggModel, h]
      rw [hstep]
      rcases ih init with heq | ⟨a, ha, heq⟩
      · exact Or.inl heq
      · exact Or.inr ⟨a, List.mem_cons_of_mem r ha, heq⟩

theorem maxAggModel_const (f : CostRecord → ℚ) :
    ∀ (l : List CostRecord) (init : String × ℚ),
      (∀ r ∈ l, f r ≤ init.2) → maxAggModel f l init = init := by
  intro l
  induction l with
  | nil =>
    intro init _
    rfl
  | cons r rs ih =>
    intro init h
    have hr : ¬ init.2 < f r := not_lt_of_le (h r (List.mem_cons_self r rs))
    have hstep : maxAggModel f (r :: rs) init = maxAggModel f rs init := by
      simp [maxAggModel, hr]
    rw [hstep]
    exact ih init (fun a ha => h a (List.mem_cons_of_mem r ha))

theorem selectModel_eq_of_candidates_cons (catalog : List ModelConfig)
    (criteria : ModelSelectionCriteria) (tokens : ℚ) (c : ModelConfig) (cs : List ModelConfig)
    (h : filterModelsByCriteria catalog criteria = c :: cs) :
    selectModel catalog criteria tokens =
      .ok { config := pickFirstMax (modelScore criteria tokens) c cs
            estimatedCost := calculateCost (pickFirstMax (modelScore criteria tokens) c cs) tokens
            reasoning := scoredReasoning } := by
  unfold selectModel
  rw [h]
  rfl

/-! ### Claim theorems -/

/-- C1: for a non-empty four-filter candidate set, `selectModel` returns the
candidate whose score `effectiveness / ln(cost + 1)` is maximal, and among
equal-score candidates the one occurring first in catalog order (the
candidate list splits as `l1 ++ selected :: l2` with every element of `l1`
scoring strictly below the selected model). -/
theorem selectModel_picks_max_score (catalog : List ModelConfig)
    (criteria : ModelSelectionCriteria) (tokens : ℚ)
    (h : filterModelsByCriteria catalog criteria ≠ []) :
    ∃ sel l1 l2,
      selectModel catalog criteria tokens = .ok sel ∧
      sel.estimatedCost = calculateCost sel.config tokens ∧
      filterModelsByCriteria catalog criteria = l1 ++ sel.config :: l2 ∧
      (∀ m ∈ l1, modelScore criteria tokens m < modelScore criteria tokens sel.config) ∧
      (∀ m ∈ filterModelsByCriteria catalog criteria,
        modelScore criteria tokens m ≤ modelScore criteria tokens sel.config) := by
  obtain ⟨c, cs, hc⟩ := List.exists_cons_of_ne_nil h
  obtain ⟨l1, l2, hdec, hlt, hle⟩ := pickFirstMax_spec (modelScore criteria tokens) cs c
  refine ⟨_, l1, l2, selectModel_eq_of_candidates_cons catalog criteria tokens c cs hc,
    rfl, ?_, hlt, ?_⟩
  · rw [hc]
    exact hdec
  · intro m hm
    rw [hc] at hm
    exact hle m hm

/-- Witness for C1 at a concrete input with a non-empty candidate set. -/
theorem selectModel_picks_max_score_witness :
    ∃ sel l1 l2,
      selectModel models simpleCriteria 100 = .ok sel ∧
      sel.estimatedCost = calculateCost sel.config 100 ∧
      filterModelsByCriteria models simpleCriteria = l1 ++ sel.config :: l2 ∧
      (∀ m ∈ l1, modelScore simpleCriteria 100 m < modelScore simpleCriteria 100 sel.config) ∧
      (∀ m ∈ filterModelsByCriteria models simpleCriteria,
        modelScore simpleCriteria 100 m ≤ modelScore simpleCriteria 100 sel.config) :=
  selectModel_picks_max_score models simpleCriteria 100 (by decide)

/-- C2: every selection drawn from a non-empty candidate set satisfies the
context-window bound `contextWindow ≥ criteria.contextLength` (the only
exception allowed by the claim is the empty-candidate fallback, i.e. the
case excluded by the hypothesis). -/
theorem selectModel_respects_contextWindow (catalog : List ModelConfig)
    (criteria : ModelSelectionCriteria) (tokens : ℚ)
    (h : filterModelsByCriteria catalog criteria ≠ []) :
    ∃ sel,
      selectModel catalog criteria tokens = .ok sel ∧
      criteria.contextLength ≤ sel.config.contextWindow := by
  obtain ⟨c, cs, hc⟩ := List.exists_cons_of_ne_nil h
  refine ⟨_, selectModel_eq_of_candidates_cons catalog criteria tokens c cs hc, ?_⟩
  have hmem : pickFirstMax (modelScore criteria tokens) c cs ∈ c :: cs :=
    pickFirstMax_mem _ _ _
  rw [← hc, filterModels_eq_filter] at hmem
  have hpred := (List.mem_filter.mp hmem).2
  unfold candidatePred at hpred
  simp only [Bool.and_eq_true] at hpred
  exact of_decide_eq_true hpred.1.1.2

/-- Witness for C2 at a concrete input with a non-empty candidate set. -/
theorem selectModel_respects_contextWindow_witness :
    ∃ sel,
      selectModel models simpleCriteria 100 = .ok sel ∧
      simpleCriteria.contextLength ≤ sel.config.contextWindow :=
  selectModel_respects_contextWindow models simpleCriteria 100 (by decide)

/-- C3: the candidate set is exactly the catalog filtered by the conjunction
of the four filters (complexity tags, context window, customer-tier cost
floor, urgent-voice fast requirement), and applying the four filters in any
order yields the same candidate list. -/
theorem filter_conjunction_order_independent (catalog : List ModelConfig)
    (criteria : ModelSelectionCriteria) :
    filterModelsByCriteria catalog criteria = catalog.filter (candidatePred criteria) ∧
    ∀ ps : List (ModelConfig → Bool), ps.Perm (criteriaFilters criteria) →
      applyFilters ps catalog = filterModelsByCriteria catalog criteria := by
  refine ⟨filterModels_eq_filter catalog criteria, ?_⟩
  intro ps hperm
  have h4 : applyFilters (criteriaFilters criteria) catalog =
      filterModelsByCriteria catalog criteria := rfl
  rw [applyFilters_perm hperm, h4]

/-- Witness for C3: swapping the first two filters leaves the candidate set
unchanged at a concrete input. -/
theorem filter_conjunction_order_independent_witness :
    applyFilters
        [contextFilter simpleCriteria, complexityFilter simpleCriteria,
          tierFilter simpleCriteria, channelFilter simpleCriteria] models =
      filterModelsByCriteria models simpleCriteria :=
  (filter_conjunction_order_independent models simpleCriteria).2 _
    (List.Perm.swap (complexityFilter simpleCriteria) (contextFilter simpleCriteria)
      [tierFilter simpleCriteria, channelFilter simpleCriteria])

set_option maxRecDepth 20000 in
unseal Rat.ofScientific Rat.add Rat.mul Rat.inv Rat.sub in
/-- C4 counterexample: with an empty candidate set the fallback fires, but
its reasoning text is the source string, not the text asserted by the
claim. -/
theorem fallback_reasoning_counterexample :
    selectModel models hugeContextCriteria 100 =
      .ok { config := gemini15FlashConfig
            estimatedCost := calculateCost gemini15FlashConfig 100
            reasoning := "No models matched criteria, using cheapest fallback" } ∧
    "No models matched criteria, using cheapest fallback" ≠
      "no candidates matched criteria, used cheapest fallback" := by
  constructor
  · have hfil : filterModelsByCriteria models hugeContextCriteria = [] := by decide
    unfold selectModel
    rw [hfil]
    rfl
  · decide

set_option maxRecDepth 20000 in
unseal Rat.ofScientific Rat.add Rat.mul Rat.inv Rat.sub in
/-- C4 (amended): whenever the four-filter intersection over the catalog is
empty, `selectModel` returns the single cheapest catalog model (Gemini 1.5
Flash, minimal cost per 1k tokens, first occurrence) without throwing, with
reasoning text "No models matched criteria, using cheapest fallback". -/
theorem selectModel_empty_candidates_fallback (criteria : ModelSelectionCriteria) (tokens : ℚ)
    (h : filterModelsByCriteria models criteria = []) :
    selectModel models criteria tokens =
      .ok { config := gemini15FlashConfig
            estimatedCost := calculateCost gemini15FlashConfig tokens
            reasoning := "No models matched criteria, using cheapest fallback" } ∧
    gemini15FlashConfig ∈ models ∧
    ∀ m ∈ models, gemini15FlashConfig.costPer1kTokens ≤ m.costPer1kTokens := by
  refine ⟨?_, by decide, by decide⟩
  unfold selectModel
  rw [h]
  rfl

/-- Witness for C4 (amended) at a concrete criteria with empty candidate set. -/
theorem selectModel_empty_candidates_fallback_witness :
    selectModel models hugeContextCriteria 200 =
      .ok { config := gemini15FlashConfig
            estimatedCost := calculateCost gemini15FlashConfig 200
            reasoning := "No models matched criteria, using cheapest fallback" } ∧
    gemini15FlashConfig ∈ models ∧
    ∀ m ∈ models, gemini15FlashConfig.costPer1kTokens ≤ m.costPer1kTokens :=
  selectModel_empty_candidates_fallback hugeContextCriteria 200 (by decide)

theorem findOptimalModel_ok (catalog : List ModelConfig)
    (criteria : ModelSelectionCriteria) (tokens : ℚ) (candidates : List ModelConfig) :
    ∃ p, findOptimalModel catalog criteria tokens candidates = .ok p := by
  cases candidates with
  | nil =>
    cases catalog with
    | nil => exact ⟨_, rfl⟩
    | cons m ms =>
      refine ⟨(ms.foldl (fun cheapest current =>
          if current.costPer1kTokens < cheapest.costPer1kTokens then current else cheapest) m,
        "No models matched criteria, using cheapest fallback"), ?_⟩
      simp [findOptimalModel, reduce1, Except.map]
  | cons c cs => exact ⟨_, rfl⟩

/-- C7: `selectModel` always returns a result (never an error), for every
catalog (including the empty one), criteria and token estimate: all paths,
including the cheapest-model fallback and the hardcoded default, produce
`.ok`. -/
theorem selectModel_never_throws (catalog : List ModelConfig)
    (criteria : ModelSelectionCriteria) (tokens : ℚ) :
    ∃ result, selectModel catalog criteria tokens = .ok result := by
  obtain ⟨p, hp⟩ :=
    findOptimalModel_ok catalog criteria tokens (filterModelsByCriteria catalog criteria)
  refine ⟨{ config := p.1, estimatedCost := calculateCost p.1 tokens, reasoning := p.2 }, ?_⟩
  unfold selectModel
  rw [hp]
  rfl

/-! ### Ledger helper lemmas -/

theorem sumCost_eq_map_sum (l : List CostRecord) : sumCost l = (l.map orCost).sum := by
  unfold sumCost
  rw [foldl_add_eq]
  simp

theorem sumTokens_eq_map_sum (l : List CostRecord) :
    sumTokens l = (l.map (fun r => r.totalTokens)).sum := by
  unfold sumTokens
  rw [foldl_add_eq]
  simp

theorem aggCost_eq_map_sum (l : List CostRecord) (name : String) :
    aggCost l name = ((l.filter (fun r => r.modelName == name)).map orCost).sum := by
  unfold aggCost
  rw [foldl_add_eq]
  simp

theorem orCost_nonneg {r : CostRecord} (hest : 0 ≤ r.estimatedCost)
    (hact : 0 ≤ r.actualCost.getD 0) : 0 ≤ orCost r := by
  unfold orCost
  cases hc : r.actualCost with
  | none => exact hest
  | some a =>
    show 0 ≤ if a = 0 then r.estimatedCost else a
    by_cases ha : a = 0
    · rw [if_pos ha]
      exact hest
    · rw [if_neg ha]
      rw [hc] at hact
      exact hact

theorem estimatedCost_eq_zero_of_orCost_eq_zero {r : CostRecord} (h : orCost r = 0) :
    r.estimatedCost = 0 := by
  unfold orCost at h
  cases hc : r.actualCost with
  | none =>
    rw [hc] at h
    exact h
  | some a =>
    rw [hc] at h
    have h' : (if a = 0 then r.estimatedCost else a) = 0 := h
    clear h
    by_cases ha : a = 0
    · rw [if_pos ha] at h'
      exact h'
    · rw [if_neg ha] at h'
      exact absurd h' ha

theorem exists_pos_orCost {l : List CostRecord} (hnn : ∀ r ∈ l, 0 ≤ orCost r)
    (hpos : 0 < sumCost l) : ∃ r ∈ l, 0 < orCost r := by
  by_contra h
  push_neg at h
  have hz : sumCost l = 0 := by
    rw [sumCost_eq_map_sum]
    apply List.sum_eq_zero
    intro x hx
    obtain ⟨r, hr, rfl⟩ := List.mem_map.mp hx
    exact le_antisymm (h r hr) (hnn r hr)
  rw [hz] at hpos
  exact lt_irrefl 0 hpos

theorem le_aggCost_self {l : List CostRecord} (hnn : ∀ r ∈ l, 0 ≤ orCost r)
    {r : CostRecord} (hr : r ∈ l) : orCost r ≤ aggCost l r.modelName := by
  rw [aggCost_eq_map_sum]
  apply List.single_le_sum
  · intro x hx
    obtain ⟨a, ha, rfl⟩ := List.mem_map.mp hx
    exact hnn a (List.mem_filter.mp ha).1
  · exact List.mem_map.mpr ⟨r, List.mem_filter.mpr ⟨hr, by simp⟩, rfl⟩

theorem maxObservedRate_ge {l : List CostRecord} {name : String} {q : ℚ}
    (hq : q ∈ (l.filter (fun x => x.modelName == name)).map
      (fun x => x.estimatedCost / x.totalTokens)) :
    q ≤ maxObservedRate l name := by
  unfold maxObservedRate
  split
  next heq =>
    rw [heq] at hq
    cases hq
  next x xs heq =>
    rw [heq] at hq
    rcases List.mem_cons.mp hq with rfl | h
    · exact (le_foldl_max xs q).1
    · exact (le_foldl_max xs x).2 q h

theorem maxObservedRate_le_of_all {l : List CostRecord} {name : String} {b : ℚ} (hb : 0 ≤ b)
    (h : ∀ q ∈ (l.filter (fun x => x.modelName == name)).map
      (fun x => x.estimatedCost / x.totalTokens), q ≤ b) :
    maxObservedRate l name ≤ b := by
  unfold maxObservedRate
  split
  next => exact hb
  next x xs heq =>
    refine foldl_max_le b xs x ?_ ?_
    · refine h x ?_
      rw [heq]
      exact List.mem_cons_self x xs
    · intro a ha
      refine h a ?_
      rw [heq]
      exact List.mem_cons_of_mem x ha

theorem calculateCostSavings_guard_pos {l : List CostRecord}
    (h : (maxAggModel (fun r => aggCost l r.modelName) l ("", 0)).1 ≠ "") :
    calculateCostSavings l =
      maxObservedRate l (maxAggModel (fun r => aggCost l r.modelName) l ("", 0)).1 *
        sumTokens l - sumCost l := by
  simp only [calculateCostSavings]
  rw [if_pos h]

theorem calculateCostSavings_guard_neg {l : List CostRecord}
    (h : (maxAggModel (fun r => aggCost l r.modelName) l ("", 0)).1 = "") :
    calculateCostSavings l = 0 := by
  simp only [calculateCostSavings]
  rw [if_neg (by simp [h])]

theorem getCostSummary_costSavings (docs : List CostRecord) (s e : ℤ)
    (h : windowRecords docs s e ≠ []) :
    (getCostSummary (.ok docs) s e).costSavings =
      calculateCostSavings (windowRecords docs s e) := by
  have hlen : ¬ (windowRecords docs s e).length = 0 := fun hh => h (List.length_eq_zero.mp hh)
  simp only [getCostSummary]
  rw [if_neg hlen]

/-! ### Ledger claim theorems -/

/-- C5: over any query window the `costSavings` figure of `getCostSummary`
equals (maximum observed `estimatedCost / totalTokens` rate among the events
of a model with the highest aggregate actual-or-estimated cost) × (total
tokens of all events in the window) − (total actual-or-estimated cost of
the window), and is 0 when the window has no events. The hypotheses are the
well-formedness of recorded events: non-empty model names, non-negative
costs, positive token counts. -/
theorem costSavings_formula (docs : List CostRecord) (s e : ℤ)
    (hwf : ∀ r ∈ windowRecords docs s e,
      r.modelName ≠ "" ∧ 0 ≤ r.estimatedCost ∧ 0 < r.totalTokens ∧ 0 ≤ r.actualCost.getD 0) :
    (windowRecords docs s e = [] → (getCostSummary (.ok docs) s e).costSavings = 0) ∧
    (windowRecords docs s e ≠ [] →
      ∃ m, (∃ r ∈ windowRecords docs s e, r.modelName = m) ∧
        (∀ r ∈ windowRecords docs s e,
          aggCost (windowRecords docs s e) r.modelName ≤ aggCost (windowRecords docs s e) m) ∧
        (getCostSummary (.ok docs) s e).costSavings =
          maxObservedRate (windowRecords docs s e) m * sumTokens (windowRecords docs s e) -
            sumCost (windowRecords docs s e)) := by
  constructor
  · intro h
    simp [getCostSummary, h, getEmptySummary]
  · intro hne
    have hnn : ∀ r ∈ windowRecords docs s e, 0 ≤ orCost r := fun r hr =>
      orCost_nonneg (hwf r hr).2.1 (hwf r hr).2.2.2
    have h0 : 0 ≤ sumCost (windowRecords docs s e) := by
      rw [sumCost_eq_map_sum]
      apply List.sum_nonneg
      intro x hx
      obtain ⟨r, hr, rfl⟩ := List.mem_map.mp hx
      exact hnn r hr
    rcases eq_or_lt_of_le h0 with heq | hpos
    · -- all costs are zero: the reduce keeps ("", 0) and both sides are 0
      have hzero : ∀ r ∈ windowRecords docs s e, orCost r = 0 := by
        intro r hr
        refine List.all_zero_of_le_zero_le_of_sum_eq_zero ?_ ?_
          (List.mem_map.mpr ⟨r, hr, rfl⟩)
        · intro x hx
          obtain ⟨a, ha, rfl⟩ := List.mem_map.mp hx
          exact hnn a ha
        · rw [← sumCost_eq_map_sum]
          exact heq.symm
      have hagg0 : ∀ name, aggCost (windowRecords docs s e) name = 0 := by
        intro name
        rw [aggCost_eq_map_sum]
        apply List.sum_eq_zero
        intro x hx
        obtain ⟨a, ha, rfl⟩ := List.mem_map.mp hx
        exact hzero a (List.mem_filter.mp ha).1
      have hM : maxAggModel (fun r => aggCost (windowRecords docs s e) r.modelName)
          (windowRecords docs s e) ("", 0) = ("", 0) := by
        refine maxAggModel_const _ _ _ ?_
        intro r _
        rw [hagg0]
      obtain ⟨r0, rest, hR0⟩ := List.exists_cons_of_ne_nil hne
      have hr0mem : r0 ∈ windowRecords docs s e := by
        rw [hR0]
        exact List.mem_cons_self r0 rest
      refine ⟨r0.modelName, ⟨r0, hr0mem, rfl⟩, ?_, ?_⟩
      · intro r _
        rw [hagg0, hagg0]
      · have hest0 : ∀ r ∈ windowRecords docs s e, r.estimatedCost = 0 := fun r hr =>
          estimatedCost_eq_zero_of_orCost_eq_zero (hzero r hr)
        have hrate : maxObservedRate (windowRecords docs s e) r0.modelName = 0 := by
          refine le_antisymm ?_ ?_
          · refine maxObservedRate_le_of_all (le_refl 0) ?_
            intro q hq
            obtain ⟨a, ha, rfl⟩ := List.mem_map.mp hq
            rw [hest0 a (List.mem_filter.mp ha).1, zero_div]
          · have : r0.estimatedCost / r0.totalTokens ≤
                maxObservedRate (windowRecords docs s e) r0.modelName :=
              maxObservedRate_ge (List.mem_map.mpr
                ⟨r0, List.mem_filter.mpr ⟨hr0mem, by simp⟩, rfl⟩)
            rw [hest0 r0 hr0mem, zero_div] at this
            exact this
        rw [getCostSummary_costSavings docs s e hne,
          calculateCostSavings_guard_neg (by rw [hM]), hrate, ← heq]
        ring
    · -- positive total cost: the reduce picks a real model of maximal aggregate
      obtain ⟨rp, hrp, hrppos⟩ := exists_pos_orCost hnn hpos
      have hfr : 0 < aggCost (windowRecords docs s e) rp.modelName :=
        lt_of_lt_of_le hrppos (le_aggCost_self hnn hrp)
      have hM2 : aggCost (windowRecords docs s e) rp.modelName ≤
          (maxAggModel (fun r => aggCost (windowRecords docs s e) r.modelName)
            (windowRecords docs s e) ("", 0)).2 :=
        (maxAggModel_le _ _ _).2 rp hrp
      have hMpos : 0 < (maxAggModel (fun r => aggCost (windowRecords docs s e) r.modelName)
          (windowRecords docs s e) ("", 0)).2 := lt_of_lt_of_le hfr hM2
      rcases maxAggModel_cases (fun r => aggCost (windowRecords docs s e) r.modelName)
          (windowRecords docs s e) ("", 0) with hMi | ⟨r', hr', hMeq⟩
      · rw [hMi] at hMpos
        exact absurd hMpos (lt_irrefl 0)
      · have hname : (maxAggModel (fun r => aggCost (windowRecords docs s e) r.modelName)
            (windowRecords docs s e) ("", 0)).1 = r'.modelName := by
          rw [hMeq]
        have hM2eq : (maxAggModel (fun r => aggCost (windowRecords docs s e) r.modelName)
            (windowRecords docs s e) ("", 0)).2 =
              aggCost (windowRecords docs s e) r'.modelName := by
          rw [hMeq]
        have hguard : (maxAggModel (fun r => aggCost (windowRecords docs s e) r.modelName)
            (windowRecords docs s e) ("", 0)).1 ≠ "" := by
          rw [hname]
          exact (hwf r' hr').1
        refine ⟨r'.modelName, ⟨r', hr', rfl⟩, ?_, ?_⟩
        · intro r hr
          have hle := (maxAggModel_le (fun x => aggCost (windowRecords docs s e) x.modelName)
            (windowRecords docs s e) ("", 0)).2 r hr
          rw [hM2eq] at hle
          exact hle
        · rw [getCostSummary_costSavings docs s e hne, calculateCostSavings_guard_pos hguard,
            hname]

unseal Rat.ofScientific Rat.add Rat.mul Rat.inv Rat.sub in
/-- Witness for C5 at a concrete two-model window. -/
theorem costSavings_formula_witness :
    (windowRecords savingsWitnessDocs (-1) 2 = [] →
      (getCostSummary (.ok savingsWitnessDocs) (-1) 2).costSavings = 0) ∧
    (windowRecords savingsWitnessDocs (-1) 2 ≠ [] →
      ∃ m, (∃ r ∈ windowRecords savingsWitnessDocs (-1) 2, r.modelName = m) ∧
        (∀ r ∈ windowRecords savingsWitnessDocs (-1) 2,
          aggCost (windowRecords savingsWitnessDocs (-1) 2) r.modelName ≤
            aggCost (windowRecords savingsWitnessDocs (-1) 2) m) ∧
        (getCostSummary (.ok savingsWitnessDocs) (-1) 2).costSavings =
          maxObservedRate (windowRecords savingsWitnessDocs (-1) 2) m *
            sumTokens (windowRecords savingsWitnessDocs (-1) 2) -
            sumCost (windowRecords savingsWitnessDocs (-1) 2)) :=
  costSavings_formula savingsWitnessDocs (-1) 2 (by decide)

set_option maxRecDepth 20000 in
unseal Rat.ofScientific Rat.add Rat.mul Rat.inv Rat.sub in
/-- C6: `checkBudgetAlert` returns `withinBudget` exactly when today's total
cost is at most the daily budget, `budgetRemaining` equal to budget minus
today's total cost (possibly negative), and `alertTriggered` exactly when
today's total cost strictly exceeds 80% of the budget; concretely, with
budget 100 and recorded cost 81 the alert fires, and with 79 it does not. -/
theorem checkBudgetAlert_spec :
    (∀ (fetched : Except Unit (List CostRecord)) (s e : ℤ) (dailyBudget : ℚ),
      ((checkBudgetAlert fetched s e dailyBudget).withinBudget = true ↔
        (getCostSummary fetched s e).totalCost ≤ dailyBudget) ∧
      (checkBudgetAlert fetched s e dailyBudget).currentSpending =
        (getCostSummary fetched s e).totalCost ∧
      (checkBudgetAlert fetched s e dailyBudget).budgetRemaining =
        dailyBudget - (getCostSummary fetched s e).totalCost ∧
      ((checkBudgetAlert fetched s e dailyBudget).alertTriggered = true ↔
        dailyBudget * 0.8 < (getCostSummary fetched s e).totalCost)) ∧
    (checkBudgetAlert (.ok budget81Docs) 0 10 100).alertTriggered = true ∧
    (checkBudgetAlert (.ok budget81Docs) 0 10 100).withinBudget = true ∧
    (checkBudgetAlert (.ok budget79Docs) 0 10 100).alertTriggered = false := by
  refine ⟨?_, by decide, by decide, by decide⟩
  intro fetched s e dailyBudget
  refine ⟨?_, rfl, rfl, ?_⟩
  · simp [checkBudgetAlert]
  · simp [checkBudgetAlert]

/-- C8: when the store read fails or no recorded event falls inside the
window, `getCostSummary` returns the all-zero empty summary (and, being a
total function, does not throw). -/
theorem getCostSummary_empty_cases (fetched : Except Unit (List CostRecord)) (s e : ℤ)
    (h : fetched = .error () ∨ ∃ docs, fetched = .ok docs ∧ windowRecords docs s e = []) :
    getCostSummary fetched s e =
      { totalCost := 0
        totalRequests := 0
        averageCostPerRequest := 0
        costByModel := []
        costByChannel := []
        costByComplexity := []
        costSavings := 0
        costSavingsPercentage := 0
        periodStart := s
        periodEnd := e } := by
  rcases h with rfl | ⟨docs, rfl, hw⟩
  · rfl
  · simp only [getCostSummary, hw]
    rfl

/-- Witness for C8: a store whose only event lies outside the window. -/
theorem getCostSummary_empty_cases_witness :
    getCostSummary (.ok outsideWindowDocs) 0 10 =
      { totalCost := 0
        totalRequests := 0
        averageCostPerRequest := 0
        costByModel := []
        costByChannel := []
        costByComplexity := []
        costSavings := 0
        costSavingsPercentage := 0
        periodStart := 0
        periodEnd := 10 } :=
  getCostSummary_empty_cases (.ok outsideWindowDocs) 0 10
    (Or.inr ⟨outsideWindowDocs, rfl, by decide⟩)

/-- C9: `recordUsage` assigns the fresh id and timestamp to the persisted
record; when the store write succeeds (behaving as an append) exactly one
new record is persisted; when the store write fails the error is caught and
the call returns normally with the store unchanged — no error propagates,
as `recordUsage` is a total function into the store type. -/
theorem recordUsage_spec (write : CostRecord → Except String (List CostRecord))
    (store : List CostRecord) (input : UsageEventInput) (newId : String) (now : ℤ) :
    ((mkCostRecord input newId now).id = newId ∧
      (mkCostRecord input newId now).timestamp = now) ∧
    (write (mkCostRecord input newId now) = .ok (store ++ [mkCostRecord input newId now]) →
      recordUsage write store input newId now = store ++ [mkCostRecord input newId now] ∧
      (recordUsage write store input newId now).length = store.length + 1) ∧
    (∀ msg, write (mkCostRecord input newId now) = .error msg →
      recordUsage write store input newId now = store) := by
  refine ⟨⟨rfl, rfl⟩, ?_, ?_⟩
  · intro h
    unfold recordUsage
    rw [h]
    exact ⟨rfl, by simp⟩
  · intro msg h
    unfold recordUsage
    rw [h]

/-- Witness for C9: a successful append write and a failing write. -/
theorem recordUsage_spec_witness :
    recordUsage (fun r => .ok ([] ++ [r])) [] sampleInput "cost_1" 5 =
      [] ++ [mkCostRecord sampleInput "cost_1" 5] ∧
    recordUsage (fun _ => .error "store unavailable") [] sampleInput "cost_1" 5 = [] :=
  ⟨((recordUsage_spec (fun r => .ok ([] ++ [r])) [] sampleInput "cost_1" 5).2.1 rfl).1,
    (recordUsage_spec (fun _ => .error "store unavailable") [] sampleInput "cost_1" 5).2.2
      "store unavailable" rfl⟩

set_option maxRecDepth 20000 in
unseal Rat.ofScientific Rat.add Rat.mul Rat.inv Rat.sub in
/-- C10 counterexample: one event with positive actual cost but zero
estimated cost satisfies all the preconditions of the claim (non-empty
window, positive token counts, positive total cost), yet the divisor
`totalCost + costSavings` of `costSavingsPercentage` is zero. -/
theorem zero_divisor_counterexample :
    windowRecords zeroEstimateDocs (-1) 1 ≠ [] ∧
    (∀ r ∈ windowRecords zeroEstimateDocs (-1) 1, 0 < r.totalTokens) ∧
    0 < sumCost (windowRecords zeroEstimateDocs (-1) 1) ∧
    sumCost (windowRecords zeroEstimateDocs (-1) 1) +
      calculateCostSavings (windowRecords zeroEstimateDocs (-1) 1) = 0 := by
  decide

/-- C10 (amended): with the events in the window well formed (non-empty
model names, non-negative costs, positive tokens), the window non-empty,
the total cost positive, and additionally the top-aggregate-cost model
having at least one event with positive estimated cost, every divisor used
by `getCostSummary` is non-zero: the request count (divisor of
`averageCostPerRequest`), every event's `totalTokens` (divisor of the
per-event cost-per-token rates), and `totalCost + costSavings` (divisor of
`costSavingsPercentage`). -/
theorem summary_divisors_nonzero (docs : List CostRecord) (s e : ℤ)
    (hne : windowRecords docs s e ≠ [])
    (hwf : ∀ r ∈ windowRecords docs s e,
      r.modelName ≠ "" ∧ 0 ≤ r.estimatedCost ∧ 0 < r.totalTokens ∧ 0 ≤ r.actualCost.getD 0)
    (hpos : 0 < sumCost (windowRecords docs s e))
    (hrate : ∃ r ∈ windowRecords docs s e,
      r.modelName = (maxAggModel (fun x => aggCost (windowRecords docs s e) x.modelName)
        (windowRecords docs s e) ("", 0)).1 ∧ 0 < r.estimatedCost) :
    ((windowRecords docs s e).length : ℚ) ≠ 0 ∧
    (∀ r ∈ windowRecords docs s e, r.totalTokens ≠ 0) ∧
    sumCost (windowRecords docs s e) + calculateCostSavings (windowRecords docs s e) ≠ 0 := by
  have hnn : ∀ r ∈ windowRecords docs s e, 0 ≤ orCost r := fun r hr =>
    orCost_nonneg (hwf r hr).2.1 (hwf r hr).2.2.2
  refine ⟨?_, ?_, ?_⟩
  · have : (windowRecords docs s e).length ≠ 0 := fun hh => hne (List.length_eq_zero.mp hh)
    exact_mod_cast Nat.cast_ne_zero.mpr this
  · intro r hr
    exact ne_of_gt (hwf r hr).2.2.1
  · obtain ⟨rp, hrp, hrppos⟩ := exists_pos_orCost hnn hpos
    have hfr : 0 < aggCost (windowRecords docs s e) rp.modelName :=
      lt_of_lt_of_le hrppos (le_aggCost_self hnn hrp)
    have hMpos : 0 < (maxAggModel (fun r => aggCost (windowRecords docs s e) r.modelName)
        (windowRecords docs s e) ("", 0)).2 :=
      lt_of_lt_of_le hfr ((maxAggModel_le _ _ _).2 rp hrp)
    have hguard : (maxAggModel (fun r => aggCost (windowRecords docs s e) r.modelName)
        (windowRecords docs s e) ("", 0)).1 ≠ "" := by
      rcases maxAggModel_cases (fun r => aggCost (windowRecords docs s e) r.modelName)
          (windowRecords docs s e) ("", 0) with hMi | ⟨r', hr', hMeq⟩
      · rw [hMi] at hMpos
        exact absurd hMpos (lt_irrefl 0)
      · rw [hMeq]
        exact (hwf r' hr').1
    obtain ⟨rq, hrq, hrqname, hrqpos⟩ := hrate
    have hratepos : 0 < maxObservedRate (windowRecords docs s e)
        (maxAggModel (fun x => aggCost (windowRecords docs s e) x.modelName)
          (windowRecords docs s e) ("", 0)).1 := by
      have hmem : rq.estimatedCost / rq.totalTokens ∈
          ((windowRecords docs s e).filter (fun x => x.modelName ==
            (maxAggModel (fun x => aggCost (windowRecords docs s e) x.modelName)
              (windowRecords docs s e) ("", 0)).1)).map
            (fun x => x.estimatedCost / x.totalTokens) :=
        List.mem_map.mpr ⟨rq, List.mem_filter.mpr ⟨hrq, by simp [hrqname]⟩, rfl⟩
      exact lt_of_lt_of_le (div_pos hrqpos (hwf rq hrq).2.2.1) (maxObservedRate_ge hmem)
    have htok : 0 < sumTokens (windowRecords docs s e) := by
      obtain ⟨r0, rest, hR0⟩ := List.exists_cons_of_ne_nil hne
      have hr0mem : r0 ∈ windowRecords docs s e := by
        rw [hR0]
        exact List.mem_cons_self r0 rest
      have hle : r0.totalTokens ≤ sumTokens (windowRecords docs s e) := by
        rw [sumTokens_eq_map_sum]
        refine List.single_le_sum ?_ _ (List.mem_map.mpr ⟨r0, hr0mem, rfl⟩)
        intro x hx
        obtain ⟨a, ha, rfl⟩ := List.mem_map.mp hx
        exact le_of_lt (hwf a ha).2.2.1
      exact lt_of_lt_of_le (hwf r0 hr0mem).2.2.1 hle
    rw [calculateCostSavings_guard_pos hguard]
    have hsimp : sumCost (windowRecords docs s e) +
        (maxObservedRate (windowRecords docs s e)
            (maxAggModel (fun r => aggCost (windowRecords docs s e) r.modelName)
              (windowRecords docs s e) ("", 0)).1 *
          sumTokens (windowRecords docs s e) - sumCost (windowRecords docs s e)) =
        maxObservedRate (windowRecords docs s e)
            (maxAggModel (fun r => aggCost (windowRecords docs s e) r.modelName)
              (windowRecords docs s e) ("", 0)).1 *
          sumTokens (windowRecords docs s e) := by
      ring
    rw [hsimp]
    exact ne_of_gt (mul_pos hratepos htok)

unseal Rat.ofScientific Rat.add Rat.mul Rat.inv Rat.sub in
/-- Witness for C10 (amended) at a concrete one-event window with positive
estimated cost. -/
theorem summary_divisors_nonzero_witness :
    ((windowRecords positiveEstimateDocs (-1) 1).length : ℚ) ≠ 0 ∧
    (∀ r ∈ windowRecords positiveEstimateDocs (-1) 1, r.totalTokens ≠ 0) ∧
    sumCost (windowRecords positiveEstimateDocs (-1) 1) +
      calculateCostSavings (windowRecords positiveEstimateDocs (-1) 1) ≠ 0 :=
  summary_divisors_nonzero positiveEstimateDocs (-1) 1 (by decide) (by decide) (by decide)
    (by decide)

end Infra
